import Mathlib

/-!
Shallow embedding of the core of the polkadot-profit-transformer indexer:
the block-sync driver (`BlocksService`), the fencing task-processing
protocol (`BlockMetadataProcessorService.processTaskMessage`) and the
staking era-aggregation computation (`StakingService`).

External collaborators (chain RPC, relational store, broker) are
parametrized as explicit oracles; stateful code is modelled by explicit
state passing; JavaScript promise rejection is modelled by `Except`.
-/

namespace PPT

/-! ## Sync driver: `BlocksService.processBlocks` and helpers -/

/-- The chunk-size expression of the `processBlocks` loop body:
`lastBlockNumber - blockNumber >= 10 ? 10 : (lastBlockNumber - blockNumber) % 10`.
Inside the loop `blockNumber <= lastBlockNumber`, so the JS subtraction is
non-negative and `Nat` subtraction is faithful. -/
def chunkSize (lastBlockNumber blockNumber : Nat) : Nat :=
  if lastBlockNumber - blockNumber ≥ 10 then 10 else (lastBlockNumber - blockNumber) % 10

/-- One chunk of dispatched per-block job heights:
`Array(chunk).fill('').map((_, i) => runBlocksWorker(i + 1, blockNumber + i))`. -/
def chunkHeights (blockNumber chunk : Nat) : List Nat :=
  (List.range chunk).map (fun i => blockNumber + i)

/-- The `while (blockNumber <= lastBlockNumber)` loop of `processBlocks`.
`getHead n` is the result of the `n`-th call to `polkadotApi.getFinBlockNumber`
(call `0` is the one made before the loop); `jobs h` is the boolean outcome of
the `runBlocksWorker` job dispatched for height `h` (the job never rejects, see
`runBlocksWorker` below, so `Promise.all` always resolves). Returns the list of
dispatched chunks (heights), the per-chunk job results, and the final value of
`blockNumber`. `fuel` bounds the number of iterations, since the chain head
oracle may keep advancing forever. -/
def processBlocksLoop (getHead : Nat → Nat) (jobs : Nat → Bool) :
    Nat → Nat → Nat → Nat → List (List Nat) × List (List Bool) × Nat
  | 0, blockNumber, _, _ => ([], [], blockNumber)
  | fuel + 1, blockNumber, lastBlockNumber, headCalls =>
    if blockNumber ≤ lastBlockNumber then
      let chunk := chunkSize lastBlockNumber blockNumber
      let heights := chunkHeights blockNumber chunk
      let results := heights.map jobs
      let bn2 := blockNumber + 10
      let next :=
        if bn2 > lastBlockNumber then
          processBlocksLoop getHead jobs fuel bn2 (getHead (headCalls + 1)) (headCalls + 1)
        else
          processBlocksLoop getHead jobs fuel bn2 lastBlockNumber headCalls
      (heights :: next.1, results :: next.2.1, next.2.2)
    else ([], [], blockNumber)

/-- Chain-reader oracle for `BlocksService` (the `PolkadotModule` collaborator).
All state reads are point-in-time at a block hash; head queries are indexed by
call count. `Option` models JS `null`/`isNone`/`isEmpty` results. -/
structure PolkadotApi where
  getBlockHashByHeight : Nat → Option String
  getHistoryDepth : String → Nat
  currentEraAtHead : Nat
  currentEraAt : String → Option Nat
  sessionIdAt : String → Option Nat
  activeEraAt : String → Option Nat
  extHeaderAt : String → Option String
  getFinBlockNumber : Nat → Nat

/-- `BlocksService.checkHistoryDepthAvailableData`: fails when the block hash is
unavailable, when the block's era is unavailable, or when the block is deeper
than `HISTORY_DEPTH` and any of session id / active era / extended header cannot
be resolved at the block's hash. -/
def checkHistoryDepthAvailableData (api : PolkadotApi) (blockNumber : Nat) : Bool :=
  match api.getBlockHashByHeight blockNumber with
  | none => false
  | some blockHash =>
    let historyDepth := api.getHistoryDepth blockHash
    match api.currentEraAt blockHash with
    | none => false
    | some blockEra =>
      if api.currentEraAtHead - blockEra > historyDepth then
        let hasError :=
          (api.sessionIdAt blockHash).isNone || (api.activeEraAt blockHash).isNone
            || (api.extHeaderAt blockHash).isNone
        !hasError
      else
        true

/-- Result of a `processBlocks` run: dispatched chunks, their job results, the
final loop counter, whether the exclusive sync lock was released, and whether
the finalized-head subscription was handed off. -/
structure ProcessBlocksResult where
  chunks : List (List Nat)
  jobResults : List (List Bool)
  finalBlockNumber : Nat
  released : Bool
  subscribed : Bool
  deriving DecidableEq

/-- `BlocksService.processBlocks(startBlockNumber, optionSubscribeFinHead)`:
acquire the sync lock, resolve the start height from the last-processed
checkpoint when absent, fetch the finalized head, run the history-depth guard
(aborting with the lock released and no dispatch on failure), then run the
chunked loop and release the lock. -/
def processBlocks (api : PolkadotApi) (jobs : Nat → Bool) (lastProcessedBlock : Nat)
    (startBlockNumber : Option Nat) (optionSubscribeFinHead : Bool) (fuel : Nat) :
    ProcessBlocksResult :=
  let start := startBlockNumber.getD lastProcessedBlock
  let lastBlockNumber := api.getFinBlockNumber 0
  if checkHistoryDepthAvailableData api start then
    let r := processBlocksLoop api.getFinBlockNumber jobs fuel start lastBlockNumber 0
    { chunks := r.1, jobResults := r.2.1, finalBlockNumber := r.2.2, released := true,
      subscribed := optionSubscribeFinHead }
  else
    { chunks := [], jobResults := [], finalBlockNumber := start, released := true,
      subscribed := false }

/-- The retry loop of `BlocksService.runBlocksWorker`:
`for (let attempts = 5; attempts > 0; attempts--)`. `attemptResult k` is the
outcome of the `k`-th `processBlock` call (0-based); a rejection is caught
(`.catch` sets `lastError`), logged, and followed by `sleep(2000)`. Returns the
boolean result, the number of attempts made, and the list of sleep durations. -/
def runBlocksWorkerLoop (attemptResult : Nat → Except String Unit) :
    Nat → Nat → Bool × Nat × List Nat
  | 0, made => (false, made, [])
  | attempts + 1, made =>
    match attemptResult made with
    | Except.ok _ => (true, made + 1, [])
    | Except.error _ =>
      let next := runBlocksWorkerLoop attemptResult attempts (made + 1)
      (next.1, next.2.1, 2000 :: next.2.2)

/-- `BlocksService.runBlocksWorker`: up to 5 attempts of the single-block
pipeline; every failure is caught inside the loop, so the returned promise
always resolves to a `Bool` and never rejects. -/
def runBlocksWorker (attemptResult : Nat → Except String Unit) : Bool × Nat × List Nat :=
  runBlocksWorkerLoop attemptResult 5 0

/-- A chain oracle whose block-hash lookup always fails: it triggers the first
failure mode of the history-depth guard. -/
def noHashApi : PolkadotApi :=
  { getBlockHashByHeight := fun _ => none, getHistoryDepth := fun _ => 84,
    currentEraAtHead := 100, currentEraAt := fun _ => some 0,
    sessionIdAt := fun _ => none, activeEraAt := fun _ => none,
    extHeaderAt := fun _ => none, getFinBlockNumber := fun _ => 119 }

/-! ## Administrative surface: `getBlocksStatus`, `trimAndUpdateToFinalized` -/

/-- `IBlocksStatusResult` as assembled by `getBlocksStatus`. -/
structure IBlocksStatusResult where
  status : String
  height_diff : Int
  fin_height_diff : Int
  deriving DecidableEq

/-- `BlocksService.getBlocksStatus`: status string from the sync-lock flag;
`chainInfo = some (finalized, header, lastLocal)` models the three reads
succeeding, `none` the caught failure path that leaves both diffs at `-1`. -/
def getBlocksStatus (isLocked : Bool) (chainInfo : Option (Int × Int × Int)) :
    IBlocksStatusResult :=
  let status := if isLocked then "synchronization" else "synchronized"
  match chainInfo with
  | none => { status := status, height_diff := -1, fin_height_diff := -1 }
  | some (lastBlockNumber, headerNumber, lastLocalNumber) =>
    { status := status, height_diff := lastBlockNumber - lastLocalNumber,
      fin_height_diff := headerNumber - lastBlockNumber }

/-- Side effects attempted by `trimAndUpdateToFinalized`. -/
inductive TrimStep
  | trimBlocks (startBlockNumber : Nat)
  | processBlocksCall (startBlockNumber : Nat)
  deriving DecidableEq

/-- `BlocksService.trimAndUpdateToFinalized`: refuse with `{result: false}` when
the sync lock is held; otherwise run the trim and then `processBlocks`, catching
and logging any error, and return `{result: true}`. `trimResult` and
`processResult` are the outcomes of the two awaited collaborator calls. Returns
the `result` field and the list of steps attempted. -/
def trimAndUpdateToFinalized (isLocked : Bool) (trimResult : Except String Unit)
    (processResult : Except String Unit) (startBlockNumber : Nat) : Bool × List TrimStep :=
  if isLocked then
    (false, [])
  else
    match trimResult with
    | Except.error _ => (true, [TrimStep.trimBlocks startBlockNumber])
    | Except.ok _ =>
      match processResult with
      | Except.error _ =>
        (true, [TrimStep.trimBlocks startBlockNumber, TrimStep.processBlocksCall startBlockNumber])
      | Except.ok _ =>
        (true, [TrimStep.trimBlocks startBlockNumber, TrimStep.processBlocksCall startBlockNumber])

/-! ## Fencing task processing: `BlockMetadataProcessorService.processTaskMessage` -/

/-- Modelled from the spec: `PROCESSING_STATUS` of `processing_task.model` is not
under `src/`; the spec's Work Item data model gives
`status ∈ {NOT_PROCESSED, PROCESSED}`. -/
inductive ProcessingStatus
  | NOT_PROCESSED
  | PROCESSED
  deriving DecidableEq

/-- Modelled from the spec: the Work Item row of the Fencing Task Store
(`processing_task.model` is not under `src/`): status, attempt count and
fencing token (`collect_uid`). -/
structure TaskRecord where
  attempts : Nat
  collect_uid : String
  status : ProcessingStatus
  deriving DecidableEq

/-- Modelled from the spec: a delivery message from the task source
(`loaders/rabbitmq` is not under `src/`) carries `{entity_id, fencing_token}`;
the code destructures `{ entity_id: blockId, collect_uid }`. -/
structure TaskMessage where
  entity_id : Nat
  collect_uid : String
  deriving DecidableEq

/-- The store visible to the processor: Work Item rows keyed by block id, plus
the append-only `total_issuance` rows written by `processBlock`. -/
structure TaskStore where
  tasks : List (Nat × TaskRecord)
  issuance : List (Nat × String)
  deriving DecidableEq

/-- An SQL `UPDATE ... WHERE id = ?`: rewrite every row keyed `id` with `f`. -/
def updateTaskRecord (f : TaskRecord → TaskRecord) (tasks : List (Nat × TaskRecord))
    (id : Nat) : List (Nat × TaskRecord) :=
  tasks.map (fun p => if p.1 = id then (p.1, f p.2) else p)

/-- Modelled from the spec: `TasksRepository.increaseAttempts` (not under
`src/`) unconditionally increments `attempts` of the Work Item identified by
`(entity_kind, entity_id)`; an absent row is left absent. -/
def increaseAttempts (tasks : List (Nat × TaskRecord)) (id : Nat) :
    List (Nat × TaskRecord) :=
  updateTaskRecord (fun r => { r with attempts := r.attempts + 1 }) tasks id

/-- Modelled from the spec: `TasksRepository.setTaskRecordAsProcessed` (not
under `src/`) flips the Work Item's status to `PROCESSED` inside the open
transaction. -/
def setTaskRecordAsProcessed (tasks : List (Nat × TaskRecord)) (id : Nat) :
    List (Nat × TaskRecord) :=
  updateTaskRecord (fun r => { r with status := ProcessingStatus.PROCESSED }) tasks id

/-- `BlockMetadataProcessorService.processBlock`: resolve the block hash, read
`balances.totalIssuance` at it (`totalIssuanceAt` bundles these chain reads, a
rejection models any of them throwing) and insert a `total_issuance` row in the
enclosing transaction. -/
def processBlock (totalIssuanceAt : Nat → Except String String) (blockId : Nat)
    (issuance : List (Nat × String)) : Except String (List (Nat × String)) :=
  (totalIssuanceAt blockId).map (fun ti => issuance ++ [(blockId, ti)])

/-- How a `processTaskMessage` call ended. -/
inductive TaskOutcome
  | committed
  | abortedMissing
  | abortedMaxAttempts
  | abortedTokenMismatch
  | abortedAlreadyProcessed
  | errorRaised (msg : String)
  deriving DecidableEq

/-- Log levels used by the processor. -/
inductive LogLevel
  | info
  | warn
  | error
  deriving DecidableEq

/-- `BlockMetadataProcessorService.processTaskMessage`: increment `attempts`
outside the transaction, then in a transaction read-and-lock the row and abort
with a rollback and a warning when the row is missing, `attempts` exceeds
`MAX_ATTEMPTS`, the stored `collect_uid` differs from the message's, or the row
is not `NOT_PROCESSED`; otherwise run `processBlock`, mark the row processed and
commit; an exception rolls the transaction back, is logged and re-raised
(`TaskOutcome.errorRaised`). Returns the resulting store, the outcome, and the
log entries emitted. -/
def processTaskMessage (maxAttempts : Nat) (totalIssuanceAt : Nat → Except String String)
    (s : TaskStore) (m : TaskMessage) : TaskStore × TaskOutcome × List (LogLevel × String) :=
  let blockId := m.entity_id
  let s1 : TaskStore := { s with tasks := increaseAttempts s.tasks blockId }
  match s1.tasks.lookup blockId with
  | none =>
    (s1, TaskOutcome.abortedMissing, [(LogLevel.warn, "Task record not found. Skip processing")])
  | some taskRecord =>
    if taskRecord.attempts > maxAttempts then
      (s1, TaskOutcome.abortedMaxAttempts, [(LogLevel.warn, "Max attempts reached, cancel processing.")])
    else if taskRecord.collect_uid ≠ m.collect_uid then
      (s1, TaskOutcome.abortedTokenMismatch,
        [(LogLevel.warn, "Possible block processing task duplication. Skip processing.")])
    else if taskRecord.status ≠ ProcessingStatus.NOT_PROCESSED then
      (s1, TaskOutcome.abortedAlreadyProcessed,
        [(LogLevel.warn, "Block has been already processed. Skip processing.")])
    else
      match processBlock totalIssuanceAt blockId s1.issuance with
      | Except.error e => (s1, TaskOutcome.errorRaised e, [(LogLevel.error, e)])
      | Except.ok issuance2 =>
        ({ tasks := setTaskRecordAsProcessed s1.tasks blockId, issuance := issuance2 },
          TaskOutcome.committed, [(LogLevel.info, "Block has been processed and committed")])

/-! ## Staking era aggregation: `StakingService.getValidatorsAndNominatorsData` -/

/-- One `{who, value}` entry of an exposure's `others` list. -/
structure IndividualExposure where
  who : String
  value : Nat
  deriving DecidableEq

/-- A validator's stake `Exposure`: own and total stake plus nominator
contributions. -/
structure Exposure where
  total : Nat
  own : Nat
  others : List IndividualExposure
  deriving DecidableEq

/-- A `staking.payee` reward-destination value. -/
inductive Payee
  | Staked
  | Stash
  | Controller
  | Account (accountId : String)
  deriving DecidableEq

/-- `payee.isAccount`. -/
def Payee.isAccount : Payee → Bool
  | Payee.Account _ => true
  | _ => false

/-- `payee.asAccount` (only meaningful when `isAccount`). -/
def Payee.asAccount : Payee → String
  | Payee.Account a => a
  | _ => ""

/-- `payee.toString()` for the non-account destinations. -/
def payeeToString : Payee → String
  | Payee.Staked => "Staked"
  | Payee.Stash => "Stash"
  | Payee.Controller => "Controller"
  | Payee.Account _ => "Account"

/-- The `INominator` record pushed per staker. -/
structure INominator where
  era : Nat
  account_id : String
  validator : String
  is_clipped : Bool
  value : String
  reward_dest : Option String
  reward_account_id : Option String
  deriving DecidableEq

/-- The `IValidator` record pushed per validator. -/
structure IValidator where
  era : Nat
  account_id : String
  total : String
  own : String
  nominators_count : Nat
  reward_points : Nat
  reward_dest : Option String
  reward_account_id : Option String
  prefs : String
  deriving DecidableEq

/-- The `try` body of the per-staker loop in `processValidator`: compute
`is_clipped` by searching the clipped exposure for the staker's account id,
build the nominator record, resolve the staker's payee (a thrown lookup is
caught and logged, dropping the record — `none`), and fill the reward
destination fields. -/
def processOneStaker (eraId : Nat) (validatorAccountId : String) (stakersClipped : Exposure)
    (payeeAt : String → Except String (Option Payee)) (staker : IndividualExposure) :
    Option INominator :=
  let isClipped := stakersClipped.others.find? (fun e => e.who == staker.who)
  match payeeAt staker.who with
  | Except.error _ => none
  | Except.ok payee =>
    let base : INominator :=
      { era := eraId, account_id := staker.who, validator := validatorAccountId,
        is_clipped := isClipped.isNone, value := toString staker.value,
        reward_dest := none, reward_account_id := none }
    match payee with
    | none => some base
    | some p =>
      if p.isAccount then
        some { base with reward_dest := some "Account", reward_account_id := some p.asAccount }
      else
        some { base with reward_dest := some (payeeToString p) }

/-- The `for (const staker of stakers.others)` loop: each staker whose `try`
body throws is skipped (caught and logged), the rest are pushed in order. -/
def processStakers (eraId : Nat) (validatorAccountId : String) (stakersClipped : Exposure)
    (payeeAt : String → Except String (Option Payee)) (others : List IndividualExposure) :
    List INominator :=
  others.filterMap (processOneStaker eraId validatorAccountId stakersClipped payeeAt)

/-- The `validators.push({...})` record at the end of `processValidator`:
aggregated totals, `nominators_count` from the unclipped exposure, reward
points from the era map with default `0` (`?? 0`), and the validator's own
reward destination fields. -/
def validatorRecord (eraId : Nat) (eraRewardPointsMap : List (String × Nat))
    (validatorAccountId : String) (stakers : Exposure) (prefs : String)
    (validatorPayee : Option Payee) : IValidator :=
  let dests : Option String × Option String :=
    match validatorPayee with
    | none => (none, none)
    | some p =>
      if p.isAccount then (some "Account", some p.asAccount)
      else (some (payeeToString p), none)
  { era := eraId, account_id := validatorAccountId, total := toString stakers.total,
    own := toString stakers.own, nominators_count := stakers.others.length,
    reward_points := (eraRewardPointsMap.lookup validatorAccountId).getD 0,
    reward_dest := dests.1, reward_account_id := dests.2, prefs := prefs }

/-- `processValidator` inside `getValidatorsAndNominatorsData`: fetch the
validator's prefs, produce the nominator records of its stakers, resolve the
validator's own payee (a rejection here is not caught and fails the call),
and push the validator record. -/
def processValidator (eraId : Nat) (eraRewardPointsMap : List (String × Nat))
    (payeeAt : String → Except String (Option Payee)) (prefsAt : String → Except String String)
    (validatorAccountId : String) (stakers stakersClipped : Exposure) :
    Except String (List INominator × IValidator) :=
  match prefsAt validatorAccountId with
  | Except.error e => Except.error e
  | Except.ok prefs =>
    let noms := processStakers eraId validatorAccountId stakersClipped payeeAt stakers.others
    match payeeAt validatorAccountId with
    | Except.error e => Except.error e
    | Except.ok validatorPayee =>
      Except.ok (noms,
        validatorRecord eraId eraRewardPointsMap validatorAccountId stakers prefs validatorPayee)

/-! ## Concrete sample inputs used by witnesses -/

/-- A fresh Work Item row with a matching token. -/
def sampleRow : TaskRecord :=
  { attempts := 0, collect_uid := "u", status := ProcessingStatus.NOT_PROCESSED }

/-- A store holding `sampleRow` at block id 7. -/
def sampleStore : TaskStore := { tasks := [(7, sampleRow)], issuance := [] }

/-- A Work Item row whose stored token is "a". -/
def staleRow : TaskRecord :=
  { attempts := 0, collect_uid := "a", status := ProcessingStatus.NOT_PROCESSED }

/-- A store holding `staleRow` at block id 7. -/
def staleStore : TaskStore := { tasks := [(7, staleRow)], issuance := [] }

/-- An exposure entry for account "alice". -/
def aliceStaker : IndividualExposure := { who := "alice", value := 5 }

/-- An exposure entry for account "bob". -/
def bobStaker : IndividualExposure := { who := "bob", value := 3 }

/-- An exposure entry for account "carol". -/
def carolStaker : IndividualExposure := { who := "carol", value := 2 }

/-- A clipped exposure containing only alice. -/
def clippedAlice : Exposure := { total := 8, own := 0, others := [aliceStaker] }

/-- An empty clipped exposure. -/
def emptyExposure : Exposure := { total := 9, own := 4, others := [] }

/-- The nominator record produced for bob against `clippedAlice`. -/
def bobNominator : INominator :=
  { era := 1, account_id := "bob", validator := "v", is_clipped := true,
    value := "3", reward_dest := some "Staked", reward_account_id := none }

/-- A payee oracle that always resolves to `Staked`. -/
def stakedPayee : String → Except String (Option Payee) :=
  fun _ => Except.ok (some Payee.Staked)

/-- A payee oracle that throws for "bob" and resolves to `Staked` otherwise. -/
def bobFailsPayee : String → Except String (Option Payee) :=
  fun w => if w = "bob" then Except.error "boom" else Except.ok (some Payee.Staked)

/-! ## Helper lemmas -/

theorem lookup_cons_self (a : Nat) (b : TaskRecord) (t : List (Nat × TaskRecord)) :
    List.lookup a ((a, b) :: t) = some b := by
  simp [List.lookup]

theorem lookup_cons_ne (a k : Nat) (b : TaskRecord) (t : List (Nat × TaskRecord))
    (h : k ≠ a) : List.lookup k ((a, b) :: t) = List.lookup k t := by
  have hba : (k == a) = false := by
    simp [h]
  simp [List.lookup, hba]

theorem lookup_updateTaskRecord_self (f : TaskRecord → TaskRecord)
    (tasks : List (Nat × TaskRecord)) (id : Nat) :
    (updateTaskRecord f tasks id).lookup id = (tasks.lookup id).map f := by
  induction tasks with
  | nil => rfl
  | cons p t ih =>
    rcases p with ⟨a, b⟩
    by_cases hk : a = id
    · subst hk
      have h1 : updateTaskRecord f ((a, b) :: t) a = (a, f b) :: updateTaskRecord f t a := by
        simp [updateTaskRecord]
      rw [h1, lookup_cons_self, lookup_cons_self]
      rfl
    · have h1 : updateTaskRecord f ((a, b) :: t) id = (a, b) :: updateTaskRecord f t id := by
        simp [updateTaskRecord, hk]
      rw [h1, lookup_cons_ne _ _ _ _ (Ne.symm hk), lookup_cons_ne _ _ _ _ (Ne.symm hk), ih]

theorem lookup_increaseAttempts (tasks : List (Nat × TaskRecord)) (id : Nat) :
    (increaseAttempts tasks id).lookup id
      = (tasks.lookup id).map (fun r => { r with attempts := r.attempts + 1 }) :=
  lookup_updateTaskRecord_self _ tasks id

theorem lookup_setTaskRecordAsProcessed (tasks : List (Nat × TaskRecord)) (id : Nat) :
    (setTaskRecordAsProcessed tasks id).lookup id
      = (tasks.lookup id).map (fun r => { r with status := ProcessingStatus.PROCESSED }) :=
  lookup_updateTaskRecord_self _ tasks id

theorem find?_who_isNone_iff (l : List IndividualExposure) (who : String) :
    (l.find? (fun e => e.who == who)).isNone = true ↔ ∀ e ∈ l, e.who ≠ who := by
  rw [Option.isNone_iff_eq_none, List.find?_eq_none]
  constructor
  · intro hall e he
    simpa using hall e he
  · intro hall e he
    simpa using hall e he

theorem processOneStaker_fields (eraId : Nat) (vId : String) (clipped : Exposure)
    (payeeAt : String → Except String (Option Payee)) (staker : IndividualExposure)
    (nom : INominator) (heq : processOneStaker eraId vId clipped payeeAt staker = some nom) :
    nom.is_clipped = (clipped.others.find? (fun e => e.who == staker.who)).isNone
    ∧ nom.account_id = staker.who := by
  cases hp : payeeAt staker.who with
  | error e =>
    simp only [processOneStaker, hp] at heq
    exact Option.noConfusion heq
  | ok payee =>
    cases payee with
    | none =>
      simp only [processOneStaker, hp] at heq
      injection heq with h
      subst h
      exact ⟨rfl, rfl⟩
    | some p =>
      by_cases ha : p.isAccount = true
      · simp only [processOneStaker, hp] at heq
        rw [if_pos ha] at heq
        injection heq with h
        subst h
        exact ⟨rfl, rfl⟩
      · simp only [processOneStaker, hp] at heq
        rw [if_neg ha] at heq
        injection heq with h
        subst h
        exact ⟨rfl, rfl⟩

theorem runBlocksWorkerLoop_made_le (f : Nat → Except String Unit) :
    ∀ attempts made, (runBlocksWorkerLoop f attempts made).2.1 ≤ made + attempts := by
  intro attempts
  induction attempts with
  | zero =>
    intro made
    simp [runBlocksWorkerLoop]
  | succ n ih =>
    intro made
    simp only [runBlocksWorkerLoop]
    cases hf : f made with
    | ok u => simp
    | error e =>
      have := ih (made + 1)
      simp only []
      omega

theorem runBlocksWorkerLoop_sleeps (f : Nat → Except String Unit) :
    ∀ attempts made,
      ((runBlocksWorkerLoop f attempts made).2.2).all (fun t => t == 2000) = true := by
  intro attempts
  induction attempts with
  | zero =>
    intro made
    simp [runBlocksWorkerLoop]
  | succ n ih =>
    intro made
    simp only [runBlocksWorkerLoop]
    cases hf : f made with
    | ok u => simp
    | error e =>
      simpa using ih (made + 1)

theorem processBlocksLoop_jobs_independent (getHead : Nat → Nat) (jobs1 jobs2 : Nat → Bool) :
    ∀ fuel bn last hc,
      (processBlocksLoop getHead jobs1 fuel bn last hc).1
          = (processBlocksLoop getHead jobs2 fuel bn last hc).1
      ∧ (processBlocksLoop getHead jobs1 fuel bn last hc).2.2
          = (processBlocksLoop getHead jobs2 fuel bn last hc).2.2 := by
  intro fuel
  induction fuel with
  | zero =>
    intro bn last hc
    exact ⟨rfl, rfl⟩
  | succ n ih =>
    intro bn last hc
    simp only [processBlocksLoop]
    by_cases hle : bn ≤ last
    · simp only [if_pos hle]
      by_cases hgt : bn + 10 > last
      · simp only [if_pos hgt]
        exact ⟨by rw [(ih _ _ _).1], (ih _ _ _).2⟩
      · simp only [if_neg hgt]
        exact ⟨by rw [(ih _ _ _).1], (ih _ _ _).2⟩
    · simp only [if_neg hle]
      simp

/-! ## Claim theorems -/

/-- C1, counterexample: the loop's chunk size is NOT
`min(10, headHeight - currentHeight + 1)`. At `currentHeight = 110`,
`headHeight = 119` the code dispatches 9 jobs while the claimed formula gives
10, and the run `processBlocks(100)` against a static head of 119 dispatches
chunks of sizes 10 and 9 — not two chunks of 10 — never dispatching a job for
height 119. -/
theorem c1_counterexample :
    chunkSize 119 110 = 9
    ∧ ¬ chunkSize 119 110 = min 10 (119 - 110 + 1)
    ∧ (processBlocksLoop (fun _ => 119) (fun _ => true) 5 100 119 0).1.map List.length
        = [10, 9]
    ∧ ¬ 119 ∈ (processBlocksLoop (fun _ => 119) (fun _ => true) 5 100 119 0).1.flatten := by
  decide

/-- C1, amended: inside the loop (`currentHeight ≤ headHeight`) the number of
dispatched jobs equals `min(10, headHeight - currentHeight)`; for startHeight
100 against a static head of 119 the run dispatches exactly two chunks, of 10
and 9 jobs, covering heights 100..109 and 110..118, and the loop counter
advances monotonically 100 → 110 → 120. -/
theorem c1_chunk_formula (last cur : Nat) (h : cur ≤ last) :
    chunkSize last cur = min 10 (last - cur)
    ∧ (processBlocksLoop (fun _ => 119) (fun _ => true) 5 100 119 0).1
        = [List.range' 100 10, List.range' 110 9]
    ∧ (processBlocksLoop (fun _ => 119) (fun _ => true) 5 100 119 0).2.2 = 120 := by
  refine ⟨?_, by decide, by decide⟩
  by_cases hd : last - cur ≥ 10
  · rw [chunkSize, if_pos hd, Nat.min_eq_left hd]
  · rw [chunkSize, if_neg hd, Nat.mod_eq_of_lt (by omega), Nat.min_eq_right (by omega)]

/-- C1, witness for `c1_chunk_formula` at `cur = 110`, `last = 119`. -/
theorem c1_chunk_formula_witness :
    110 ≤ 119
    ∧ (chunkSize 119 110 = min 10 (119 - 110)
      ∧ (processBlocksLoop (fun _ => 119) (fun _ => true) 5 100 119 0).1
          = [List.range' 100 10, List.range' 110 9]
      ∧ (processBlocksLoop (fun _ => 119) (fun _ => true) 5 100 119 0).2.2 = 120) :=
  ⟨by decide, c1_chunk_formula 119 110 (by decide)⟩

/-- C4: when the history-depth guard fails for the start height,
`processBlocks` dispatches no chunk and no job, leaves the loop counter at the
start height, releases the sync lock, and does not hand off to the
finalized-head subscription. -/
theorem c4_guard_failure_no_dispatch (api : PolkadotApi) (jobs : Nat → Bool)
    (lastProcessedBlock : Nat) (startBlockNumber : Option Nat)
    (optionSubscribeFinHead : Bool) (fuel : Nat)
    (h : checkHistoryDepthAvailableData api (startBlockNumber.getD lastProcessedBlock) = false) :
    processBlocks api jobs lastProcessedBlock startBlockNumber optionSubscribeFinHead fuel
      = { chunks := [], jobResults := [],
          finalBlockNumber := startBlockNumber.getD lastProcessedBlock,
          released := true, subscribed := false } := by
  simp [processBlocks, h]

/-- C4, witness: a chain oracle that cannot resolve the start height's block
hash fails the guard, and `processBlocks` dispatches nothing. -/
theorem c4_guard_failure_no_dispatch_witness :
    checkHistoryDepthAvailableData noHashApi ((some 100).getD 50) = false
    ∧ processBlocks noHashApi (fun _ => true) 50 (some 100) true 5
        = { chunks := [], jobResults := [], finalBlockNumber := 100,
            released := true, subscribed := false } :=
  ⟨rfl, c4_guard_failure_no_dispatch noHashApi (fun _ => true) 50 (some 100) true 5 rfl⟩

/-- C5: `runBlocksWorker` makes at most 5 attempts, each failed attempt is
followed by a fixed 2000 ms sleep, every rejection of the block pipeline is
caught inside the loop (the function is total and returns a `Bool`, never
re-raising), and the driver's dispatched chunks and final loop counter are
identical whatever the per-job outcomes — so a job failing all 5 attempts
neither blocks its chunk nor stops the driver from advancing past it. -/
theorem c5_worker_retry_and_driver_advance (attemptResult : Nat → Except String Unit)
    (getHead : Nat → Nat) (jobs1 jobs2 : Nat → Bool) (fuel bn last hc : Nat) :
    (runBlocksWorker attemptResult).2.1 ≤ 5
    ∧ ((runBlocksWorker attemptResult).2.2).all (fun t => t == 2000) = true
    ∧ (processBlocksLoop getHead jobs1 fuel bn last hc).1
        = (processBlocksLoop getHead jobs2 fuel bn last hc).1
    ∧ (processBlocksLoop getHead jobs1 fuel bn last hc).2.2
        = (processBlocksLoop getHead jobs2 fuel bn last hc).2.2 := by
  refine ⟨?_, runBlocksWorkerLoop_sleeps attemptResult 5 0,
    (processBlocksLoop_jobs_independent getHead jobs1 jobs2 fuel bn last hc).1,
    (processBlocksLoop_jobs_independent getHead jobs1 jobs2 fuel bn last hc).2⟩
  simpa using runBlocksWorkerLoop_made_le attemptResult 5 0

/-- C8, counterexample: with the sync lock held, `getBlocksStatus` reports the
string "synchronization", not "synchronizing" as claimed. -/
theorem c8_counterexample :
    (getBlocksStatus true (some (10, 12, 7))).status = "synchronization"
    ∧ ¬ (getBlocksStatus true (some (10, 12, 7))).status = "synchronizing" := by
  constructor
  · rfl
  · decide

/-- C8, amended: `getBlocksStatus` reports "synchronization" when the sync lock
is held and "synchronized" otherwise; when the chain reads succeed,
`height_diff` is the finalized head minus the last locally processed height and
`fin_height_diff` is the chain head minus the finalized head (both `-1` when
the reads fail). -/
theorem c8_status_fields (isLocked : Bool) (fin head loc : Int) :
    (getBlocksStatus isLocked (some (fin, head, loc))).status
        = (if isLocked then "synchronization" else "synchronized")
    ∧ (getBlocksStatus isLocked (some (fin, head, loc))).height_diff = fin - loc
    ∧ (getBlocksStatus isLocked (some (fin, head, loc))).fin_height_diff = head - fin
    ∧ (getBlocksStatus isLocked none).height_diff = -1
    ∧ (getBlocksStatus isLocked none).fin_height_diff = -1 := by
  cases isLocked <;> exact ⟨rfl, rfl, rfl, rfl, rfl⟩

/-- C9: `trimAndUpdateToFinalized` returns `{result: false}` and attempts
neither the trim nor the resync while the sync lock is held; when the lock is
free it attempts the trim first and returns `{result: true}` whatever the
outcomes of the trim and the `processBlocks` call (their errors are caught and
logged, not surfaced). -/
theorem c9_trim_lock_and_errors (tr pr : Except String Unit) (n : Nat) :
    trimAndUpdateToFinalized true tr pr n = (false, [])
    ∧ (trimAndUpdateToFinalized false tr pr n).1 = true
    ∧ (trimAndUpdateToFinalized false tr pr n).2.head? = some (TrimStep.trimBlocks n) := by
  refine ⟨rfl, ?_, ?_⟩ <;> cases tr <;> cases pr <;> rfl

/-- C2: for every Work Item row, after `processTaskMessage` returns — whether
it committed, aborted on a validity check, or re-raised a transform error — the
stored `attempts` counter has increased by exactly 1; and the increment happens
before any validity check: the max-attempts check itself compares the
already-incremented value `r.attempts + 1` against the maximum. -/
theorem c2_attempts_increment (maxAttempts : Nat) (totalIssuanceAt : Nat → Except String String)
    (s : TaskStore) (m : TaskMessage) (r : TaskRecord)
    (h : s.tasks.lookup m.entity_id = some r) :
    (((processTaskMessage maxAttempts totalIssuanceAt s m).1.tasks.lookup m.entity_id).map
        TaskRecord.attempts = some (r.attempts + 1))
    ∧ ((processTaskMessage maxAttempts totalIssuanceAt s m).2.1 = TaskOutcome.abortedMaxAttempts
        ↔ r.attempts + 1 > maxAttempts) := by
  have h1 : (increaseAttempts s.tasks m.entity_id).lookup m.entity_id
      = some { r with attempts := r.attempts + 1 } := by
    rw [lookup_increaseAttempts, h]
    rfl
  have h2 : (setTaskRecordAsProcessed (increaseAttempts s.tasks m.entity_id)
        m.entity_id).lookup m.entity_id
      = some { r with attempts := r.attempts + 1, status := ProcessingStatus.PROCESSED } := by
    rw [lookup_setTaskRecordAsProcessed, h1]
    rfl
  by_cases hmax : r.attempts + 1 > maxAttempts
  · simp [processTaskMessage, h1, hmax]
  · by_cases htok : r.collect_uid ≠ m.collect_uid
    · simp [processTaskMessage, h1, hmax, htok]
    · by_cases hst : r.status ≠ ProcessingStatus.NOT_PROCESSED
      · simp [processTaskMessage, h1, hmax, htok, hst]
      · cases hti : totalIssuanceAt m.entity_id with
        | error e => simp [processTaskMessage, processBlock, Except.map, h1, h2, hmax, htok, hst, hti]
        | ok v => simp [processTaskMessage, processBlock, Except.map, h1, h2, hmax, htok, hst, hti]

/-- C2, witness: a fresh row with `attempts = 0` and a matching token is
committed, and its stored attempts counter is 1 afterwards. -/
theorem c2_attempts_increment_witness :
    (((processTaskMessage 3 (fun _ => Except.ok "100") sampleStore
        { entity_id := 7, collect_uid := "u" }).1.tasks.lookup 7).map TaskRecord.attempts
      = some (sampleRow.attempts + 1))
    ∧ ((processTaskMessage 3 (fun _ => Except.ok "100") sampleStore
        { entity_id := 7, collect_uid := "u" }).2.1 = TaskOutcome.abortedMaxAttempts
      ↔ sampleRow.attempts + 1 > 3) :=
  c2_attempts_increment 3 (fun _ => Except.ok "100") sampleStore
    { entity_id := 7, collect_uid := "u" } sampleRow rfl

/-- C3, counterexample: a delivery whose token differs from the stored one does
perform a store write — the unconditional attempts increment survives the
rollback — so "no store write" is false as stated: the store after the call
differs from the store before it. -/
theorem c3_counterexample :
    (processTaskMessage 3 (fun _ => Except.ok "0") staleStore
        { entity_id := 7, collect_uid := "b" }).2.1 = TaskOutcome.abortedTokenMismatch
    ∧ ¬ (processTaskMessage 3 (fun _ => Except.ok "0") staleStore
        { entity_id := 7, collect_uid := "b" }).1 = staleStore := by
  decide

/-- C3, amended: on a fencing-token mismatch (for a row that exists and has not
exhausted its attempts), `processTaskMessage` performs no status transition and
no store write other than the unconditional attempts increment: the outcome is
the token-mismatch abort, the mismatch is logged as a warning, no error is
raised, the issuance table is untouched, and the row keeps its status and token
with only `attempts` incremented. -/
theorem c3_token_mismatch_no_transition (maxAttempts : Nat)
    (totalIssuanceAt : Nat → Except String String) (s : TaskStore) (m : TaskMessage)
    (r : TaskRecord) (h : s.tasks.lookup m.entity_id = some r)
    (hmax : r.attempts + 1 ≤ maxAttempts) (htok : r.collect_uid ≠ m.collect_uid) :
    (processTaskMessage maxAttempts totalIssuanceAt s m).2.1 = TaskOutcome.abortedTokenMismatch
    ∧ (processTaskMessage maxAttempts totalIssuanceAt s m).2.2
        = [(LogLevel.warn, "Possible block processing task duplication. Skip processing.")]
    ∧ (processTaskMessage maxAttempts totalIssuanceAt s m).1.issuance = s.issuance
    ∧ (processTaskMessage maxAttempts totalIssuanceAt s m).1.tasks.lookup m.entity_id
        = some { r with attempts := r.attempts + 1 } := by
  have h1 : (increaseAttempts s.tasks m.entity_id).lookup m.entity_id
      = some { r with attempts := r.attempts + 1 } := by
    rw [lookup_increaseAttempts, h]
    rfl
  have hmaxn : ¬ r.attempts + 1 > maxAttempts := by omega
  simp [processTaskMessage, h1, hmaxn, htok]

/-- C3, witness for `c3_token_mismatch_no_transition` on a concrete store and a
stale token. -/
theorem c3_token_mismatch_no_transition_witness :
    (processTaskMessage 3 (fun _ => Except.ok "0") staleStore
        { entity_id := 7, collect_uid := "b" }).2.1 = TaskOutcome.abortedTokenMismatch
    ∧ (processTaskMessage 3 (fun _ => Except.ok "0") staleStore
        { entity_id := 7, collect_uid := "b" }).2.2
        = [(LogLevel.warn, "Possible block processing task duplication. Skip processing.")]
    ∧ (processTaskMessage 3 (fun _ => Except.ok "0") staleStore
        { entity_id := 7, collect_uid := "b" }).1.issuance = staleStore.issuance
    ∧ (processTaskMessage 3 (fun _ => Except.ok "0") staleStore
        { entity_id := 7, collect_uid := "b" }).1.tasks.lookup 7
        = some { staleRow with attempts := staleRow.attempts + 1 } :=
  c3_token_mismatch_no_transition 3 (fun _ => Except.ok "0") staleStore
    { entity_id := 7, collect_uid := "b" } staleRow rfl (by decide) (by decide)

/-- C7: every Nominator record produced from a validator's unclipped exposure
has `is_clipped = true` exactly when no entry of the clipped exposure has the
same account id (and `is_clipped = false` when such an entry exists). -/
theorem c7_is_clipped_iff (eraId : Nat) (vId : String) (clipped : Exposure)
    (payeeAt : String → Except String (Option Payee)) (others : List IndividualExposure)
    (nom : INominator) (h : nom ∈ processStakers eraId vId clipped payeeAt others) :
    (nom.is_clipped = true ↔ ∀ e ∈ clipped.others, e.who ≠ nom.account_id) := by
  rw [processStakers, List.mem_filterMap] at h
  obtain ⟨staker, -, heq⟩ := h
  obtain ⟨hic, hac⟩ := processOneStaker_fields eraId vId clipped payeeAt staker nom heq
  rw [hic, hac]
  exact find?_who_isNone_iff clipped.others staker.who

/-- C7, witness: with clipped exposure `[alice]` and unclipped stakers
`[alice, bob]`, bob's record is clipped and no clipped entry carries bob's id. -/
theorem c7_is_clipped_iff_witness :
    (bobNominator.is_clipped = true
      ↔ ∀ e ∈ clippedAlice.others, e.who ≠ bobNominator.account_id) :=
  c7_is_clipped_iff 1 "v" clippedAlice stakedPayee [aliceStaker, bobStaker] bobNominator
    (by decide)

/-- C10: an exception raised while processing a single staker (a failed payee
lookup) is caught: that staker's Nominator record is omitted, the records of
the surrounding stakers of the same validator are still produced, the
validator's own record is still pushed (counting all stakers of the unclipped
exposure), and `processValidator` returns `ok` rather than failing. -/
theorem c10_staker_failure_isolated (eraId : Nat) (rpMap : List (String × Nat))
    (payeeAt : String → Except String (Option Payee)) (prefsAt : String → Except String String)
    (vId : String) (t o : Nat) (l1 l2 : List IndividualExposure) (s : IndividualExposure)
    (clipped : Exposure) (prefs : String) (vp : Option Payee) (e : String)
    (hprefs : prefsAt vId = Except.ok prefs)
    (hfail : payeeAt s.who = Except.error e)
    (hvp : payeeAt vId = Except.ok vp) :
    processValidator eraId rpMap payeeAt prefsAt vId
        { total := t, own := o, others := l1 ++ s :: l2 } clipped
      = Except.ok (processStakers eraId vId clipped payeeAt l1
            ++ processStakers eraId vId clipped payeeAt l2,
          validatorRecord eraId rpMap vId { total := t, own := o, others := l1 ++ s :: l2 }
            prefs vp)
    ∧ (validatorRecord eraId rpMap vId { total := t, own := o, others := l1 ++ s :: l2 }
          prefs vp).account_id = vId
    ∧ (validatorRecord eraId rpMap vId { total := t, own := o, others := l1 ++ s :: l2 }
          prefs vp).nominators_count = (l1 ++ s :: l2).length := by
  have hfs : processOneStaker eraId vId clipped payeeAt s = none := by
    simp [processOneStaker, hfail]
  refine ⟨?_, rfl, rfl⟩
  simp only [processValidator, hprefs, hvp, processStakers, List.filterMap_append,
    List.filterMap_cons_none hfs]

/-- C10, witness: with stakers `[bob, carol]` where bob's payee lookup throws,
the call succeeds, produces only carol's record, and still pushes the validator
record counting both stakers. -/
theorem c10_staker_failure_isolated_witness :
    processValidator 1 [] bobFailsPayee (fun _ => Except.ok "prefs") "v"
        { total := 9, own := 4, others := [] ++ bobStaker :: [carolStaker] } emptyExposure
      = Except.ok (processStakers 1 "v" emptyExposure bobFailsPayee []
            ++ processStakers 1 "v" emptyExposure bobFailsPayee [carolStaker],
          validatorRecord 1 [] "v"
            { total := 9, own := 4, others := [] ++ bobStaker :: [carolStaker] }
            "prefs" (some Payee.Staked))
    ∧ (validatorRecord 1 [] "v"
          { total := 9, own := 4, others := [] ++ bobStaker :: [carolStaker] }
          "prefs" (some Payee.Staked)).account_id = "v"
    ∧ (validatorRecord 1 [] "v"
          { total := 9, own := 4, others := [] ++ bobStaker :: [carolStaker] }
          "prefs" (some Payee.Staked)).nominators_count
        = ([] ++ bobStaker :: [carolStaker]).length :=
  c10_staker_failure_isolated 1 [] bobFailsPayee (fun _ => Except.ok "prefs") "v" 9 4
    [] [carolStaker] bobStaker emptyExposure "prefs" (some Payee.Staked) "boom"
    rfl rfl rfl

end PPT
